import Mathlib

/- A shallow embedding of the MP4 / ISOBMFF box dissector
   (epan/dissectors/packet-mp4.c): the box header reader, the recursive
   box walker, the leaf body decoders and the top-level entry.

   The framework surfaces the dissector relies on (tvbuff accessors and
   the proto-tree reporter) are not part of the dissector source; they
   are modelled from the specification (sections 4.1 and 6): byte reads
   fail cleanly when the requested bytes are not available, and the
   reporter is an append-only sink of emissions that never fails and is
   never read back.  Recursion and loops are expressed with an explicit
   fuel parameter so that every definition is executable; fuel
   sufficiency (the loops really do exit on any finite buffer) is proved
   as a theorem rather than assumed. -/

namespace MP4

/-- Field identifiers of the dissector (the hf_mp4_* registrations). -/
inductive HField where
  | box_size
  | box_type_str
  | full_box_ver
  | ftyp_brand
  | ftyp_ver
  | ftyp_add_brand
  | mfhd_seq_num
deriving DecidableEq, Repr

/-- Modelled from the spec: the reporter collaborator (section 6) is an
append-only sink.  `text` is the per-box subtree node
(proto_tree_add_text over the declared box range, carrying the box type
code), `item` is a typed field emission recording the field id and the
byte range it reads (proto_tree_add_item), and `protocol` is the
protocol-level summary node over the whole buffer. -/
inductive Event where
  | text (off len btype : Nat)
  | item (f : HField) (off len : Nat)
  | protocol (len : Nat)
deriving DecidableEq, Repr

/-- Modelled from the spec: one byte of the immutable, randomly
addressable buffer (section 6); access outside the buffer yields no
data. -/
def byteAt (buf : List Nat) (off : Nat) : Option Nat :=
  (buf.get? off).map (fun b => b % 256)

/-- Modelled from the spec: the framework's 32-bit big-endian unsigned
read used by the header reader (section 4.1); it fails (TruncatedHeader)
when any of the four bytes lies outside the buffer. -/
def tvb_get_ntohl (buf : List Nat) (off : Nat) : Option Nat :=
  match byteAt buf off, byteAt buf (off+1), byteAt buf (off+2), byteAt buf (off+3) with
  | some a, some b, some c, some d => some (a * 16777216 + b * 65536 + c * 256 + d)
  | _, _, _, _ => none

/-- Conversion of a C guint value to gint (32-bit two's complement), as
performed by the `return box_len` statement of dissect_mp4_box and the
`return offset` statement of dissect_mp4. -/
def gintOfGuint (n : Nat) : Int :=
  if n % 4294967296 < 2147483648 then ((n % 4294967296 : Nat) : Int)
  else ((n % 4294967296 : Nat) : Int) - 4294967296

/-- MAKE_TYPE_VAL: four ASCII bytes packed big-endian into one code. -/
def mk_type_val (a b c d : Nat) : Nat :=
  a * 16777216 + b * 65536 + c * 256 + d

def BOX_TYPE_NONE : Nat := 0
def BOX_TYPE_FTYP : Nat := mk_type_val 102 116 121 112
def BOX_TYPE_MFHD : Nat := mk_type_val 109 102 104 100
def BOX_TYPE_MVHD : Nat := mk_type_val 109 118 104 100
def BOX_TYPE_MOOV : Nat := mk_type_val 109 111 111 118
def BOX_TYPE_MOOF : Nat := mk_type_val 109 111 111 102
def BOX_TYPE_STBL : Nat := mk_type_val 115 116 98 108
def BOX_TYPE_MDIA : Nat := mk_type_val 109 100 105 97
def BOX_TYPE_TRAK : Nat := mk_type_val 116 114 97 107
def BOX_TYPE_TRAF : Nat := mk_type_val 116 114 97 102
def BOX_TYPE_MINF : Nat := mk_type_val 109 105 110 102
def BOX_TYPE_MVEX : Nat := mk_type_val 109 118 101 120
def BOX_TYPE_MEHD : Nat := mk_type_val 109 101 104 100
def BOX_TYPE_TREX : Nat := mk_type_val 116 114 101 120

/-- The static box-type registry (the box_types value_string array). -/
def box_types : List (Nat × String) :=
  [ (BOX_TYPE_FTYP, "File Type Box"),
    (BOX_TYPE_MFHD, "Movie Fragment Header Box"),
    (BOX_TYPE_MVHD, "Movie Header Box"),
    (BOX_TYPE_MOOV, "Movie Box"),
    (BOX_TYPE_MOOF, "Movie Fragment Box"),
    (BOX_TYPE_STBL, "Sample to Group Box"),
    (BOX_TYPE_MDIA, "Media Box"),
    (BOX_TYPE_TRAK, "Track Box"),
    (BOX_TYPE_TRAF, "Track Fragment Box"),
    (BOX_TYPE_MINF, "Media Information Box"),
    (BOX_TYPE_MVEX, "Movie Extends Box"),
    (BOX_TYPE_MEHD, "Movie Extends Header Box"),
    (BOX_TYPE_TREX, "Track Extends Box") ]

/-- Modelled from the spec: registry lookup (try_val_to_str over the
box_types value_string; the terminating {0, NULL} entry matches no
code). -/
def try_val_to_str (v : Nat) : Option String :=
  (box_types.find? (fun p => p.1 == v)).map (fun p => p.2)

/-- The container cases of the switch in dissect_mp4_box. -/
def is_container_type (t : Nat) : Bool :=
  (t == BOX_TYPE_MOOV) || (t == BOX_TYPE_MOOF) || (t == BOX_TYPE_STBL) ||
  (t == BOX_TYPE_MDIA) || (t == BOX_TYPE_TRAK) || (t == BOX_TYPE_TRAF) ||
  (t == BOX_TYPE_MINF) || (t == BOX_TYPE_MVEX)

/-- dissect_mp4_mvhd_body: emits the full-box version byte, then skips
the three flag bytes; returns the number of bytes consumed. -/
def dissect_mp4_mvhd_body (_buf : List Nat) (offset : Nat) (_len : Nat)
    (acc : List Event) : Nat × List Event :=
  let offset_start := offset
  let acc1 := acc ++ [Event.item HField.full_box_ver offset 1]
  let offset1 := offset + 1 + 3
  (offset1 - offset_start, acc1)

/-- dissect_mp4_mfhd_body: the full-box version byte and three skipped
flag bytes, then the 4-byte sequence number. -/
def dissect_mp4_mfhd_body (_buf : List Nat) (offset : Nat) (_len : Nat)
    (acc : List Event) : Nat × List Event :=
  let offset_start := offset
  let acc1 := acc ++ [Event.item HField.full_box_ver offset 1]
  let offset1 := offset + 1 + 3
  let acc2 := acc1 ++ [Event.item HField.mfhd_seq_num offset1 4]
  let offset2 := offset1 + 4
  (offset2 - offset_start, acc2)

/-- The compatible-brand while loop of dissect_mp4_ftyp_body:
`while (offset - offset_start < len) { add_item(4); offset += 4; }`.
The fuel argument only bounds the iteration count; since each iteration
increases offset by 4, `len` units of fuel always suffice, so the
caller passes `len` and the loop behaves exactly like the unbounded C
loop. -/
def ftyp_brand_loop : Nat → Nat → Nat → Nat → List Event → Nat × List Event
  | 0, _, _, off, acc => (off, acc)
  | fuel+1, offset_start, len, off, acc =>
    if off - offset_start < len then
      ftyp_brand_loop fuel offset_start len (off + 4)
        (acc ++ [Event.item HField.ftyp_add_brand off 4])
    else (off, acc)

/-- dissect_mp4_ftyp_body: 4-byte major brand, 4-byte version, then
compatible brands while fewer than len bytes are consumed. -/
def dissect_mp4_ftyp_body (_buf : List Nat) (offset : Nat) (len : Nat)
    (acc : List Event) : Nat × List Event :=
  let offset_start := offset
  let acc1 := acc ++ [Event.item HField.ftyp_brand offset 4]
  let acc2 := acc1 ++ [Event.item HField.ftyp_ver (offset + 4) 4]
  let r := ftyp_brand_loop len offset_start len (offset + 8) acc2
  (r.1 - offset_start, r.2)

/-- The sibling while loop inside the container cases of
dissect_mp4_box: `while (offset - offset_start < box_len)` call the
child dissector, break on a non-positive return, otherwise advance by
the returned value.  The child dissector is passed as a function; the
final cursor value and the accumulated emissions are returned. -/
def box_loop (child : Nat → List Event → Int × List Event) :
    Nat → Nat → Nat → Nat → List Event → Nat × List Event
  | 0, _, _, off, acc => (off, acc)
  | fuel+1, offset_start, box_len, off, acc =>
    if off - offset_start < box_len then
      let p := child off acc
      if p.1 ≤ 0 then (off, p.2)
      else box_loop child fuel offset_start box_len (off + p.1.toNat) p.2
    else (off, acc)

/-- dissect_mp4_box: read the 32-bit size, fail with -1 if it is below
MIN_BOX_LEN, read the 32-bit type, report the box node and its size and
type fields, dispatch on the type (leaf decoders, container recursion,
or nothing), and return the declared box length through the gint return
type.  A failed tvbuff read is the spec's TruncatedHeader: the walker
stops cleanly (section 4.2, step 1), modelled as the same -1 failure
return.  The parent_box_type parameter is unused, as in the source. -/
def dissect_mp4_box : Nat → Nat → List Nat → Nat → List Event → Int × List Event
  | 0, _, _, _, acc => (-1, acc)
  | fuel+1, _parent_box_type, buf, offset, acc =>
    match tvb_get_ntohl buf offset with
    | none => (-1, acc)
    | some box_len =>
      if box_len < 8 then (-1, acc)
      else
        match tvb_get_ntohl buf (offset + 4) with
        | none => (-1, acc)
        | some box_type =>
          let acc1 := acc ++ [Event.text offset box_len box_type,
                              Event.item HField.box_size offset 4,
                              Event.item HField.box_type_str (offset + 4) 4]
          let acc2 :=
            if box_type = BOX_TYPE_FTYP then
              (dissect_mp4_ftyp_body buf (offset + 8) (box_len - 8) acc1).2
            else if box_type = BOX_TYPE_MVHD then
              (dissect_mp4_mvhd_body buf (offset + 8) (box_len - 8) acc1).2
            else if box_type = BOX_TYPE_MFHD then
              (dissect_mp4_mfhd_body buf (offset + 8) (box_len - 8) acc1).2
            else if is_container_type box_type then
              (box_loop (fun o a => dissect_mp4_box fuel box_type buf o a)
                fuel offset box_len (offset + 8) acc1).2
            else acc1
          (gintOfGuint box_len, acc2)

/-- The top-level while loop of dissect_mp4: while bytes remain, call
dissect_mp4_box at the cursor, break on a non-positive return,
otherwise advance the cursor by the returned value.  The loop condition
is modelled from the spec (section 4.4): stop when the remaining length
is exhausted. -/
def mp4_top_loop : Nat → List Nat → Nat → List Event → Nat × List Event
  | 0, _, off, acc => (off, acc)
  | fuel+1, buf, off, acc =>
    if off < buf.length then
      let p := dissect_mp4_box fuel BOX_TYPE_NONE buf off acc
      if p.1 ≤ 0 then (off, p.2)
      else mp4_top_loop fuel buf (off + p.1.toNat) p.2
    else (off, acc)

/-- dissect_mp4: decline (0 consumed, nothing reported) if the buffer
is shorter than MIN_BOX_LEN or the type code at offset 4 is not in the
registry; otherwise report the protocol node and run the top-level
sibling loop from offset 0, returning the final cursor through the int
return type. -/
def dissect_mp4 (fuel : Nat) (buf : List Nat) (acc : List Event) :
    Int × List Event :=
  if buf.length < 8 then (0, acc)
  else
    match tvb_get_ntohl buf 4 with
    | none => (0, acc)
    | some box_type =>
      match try_val_to_str box_type with
      | none => (0, acc)
      | some _ =>
        let acc1 := acc ++ [Event.protocol buf.length]
        let r := mp4_top_loop fuel buf 0 acc1
        (gintOfGuint r.1, r.2)

/-- The end (exclusive) of the byte range a reporter emission covers. -/
def eventEnd : Event → Nat
  | Event.text off len _ => off + len
  | Event.item _ off len => off + len
  | Event.protocol len => len

/-- Every emission in the list stays within the extent ending at hi. -/
def readsWithinExtent (evs : List Event) (hi : Nat) : Prop :=
  ∀ e ∈ evs, eventEnd e ≤ hi

instance (evs : List Event) (hi : Nat) : Decidable (readsWithinExtent evs hi) :=
  List.decidableBAll _ evs

end MP4

namespace MP4

/- Basic facts about the modelled buffer reads and the guint-to-gint
conversion. -/

theorem byteAt_lt {buf : List Nat} {i b : Nat} (h : byteAt buf i = some b) :
    b < 256 := by
  unfold byteAt at h
  cases hg : buf.get? i with
  | none => rw [hg] at h; simp at h
  | some x =>
    rw [hg] at h
    simp only [Option.map_some'] at h
    cases h
    exact Nat.mod_lt _ (by omega)

theorem tvb_get_ntohl_none {buf : List Nat} {off : Nat}
    (h : buf.length ≤ off) : tvb_get_ntohl buf off = none := by
  unfold tvb_get_ntohl byteAt
  rw [List.get?_eq_none.mpr h]
  rfl

theorem tvb_get_ntohl_lt {buf : List Nat} {off s : Nat}
    (h : tvb_get_ntohl buf off = some s) : s < 4294967296 := by
  unfold tvb_get_ntohl at h
  cases hb0 : byteAt buf off with
  | none => rw [hb0] at h; simp at h
  | some a =>
    cases hb1 : byteAt buf (off+1) with
    | none => rw [hb0, hb1] at h; simp at h
    | some b =>
      cases hb2 : byteAt buf (off+2) with
      | none => rw [hb0, hb1, hb2] at h; simp at h
      | some c =>
        cases hb3 : byteAt buf (off+3) with
        | none => rw [hb0, hb1, hb2, hb3] at h; simp at h
        | some d =>
          rw [hb0, hb1, hb2, hb3] at h
          simp only [Option.some.injEq] at h
          have ha := byteAt_lt hb0
          have hb := byteAt_lt hb1
          have hc := byteAt_lt hb2
          have hd := byteAt_lt hb3
          omega

theorem gintOfGuint_eq_of_lt {s : Nat} (h : s < 2147483648) :
    gintOfGuint s = (s : Int) := by
  unfold gintOfGuint
  rw [Nat.mod_eq_of_lt (by omega)]
  rw [if_pos h]

theorem gintOfGuint_ne_zero {s : Nat} (h8 : 8 ≤ s) (hlt : s < 4294967296) :
    gintOfGuint s ≠ 0 := by
  unfold gintOfGuint
  rw [Nat.mod_eq_of_lt hlt]
  split <;> omega

theorem gintOfGuint_pos_cases {s : Nat} (hlt : s < 4294967296)
    (h : 0 < gintOfGuint s) : s < 2147483648 ∧ gintOfGuint s = (s : Int) := by
  unfold gintOfGuint at h
  rw [Nat.mod_eq_of_lt hlt] at h
  by_cases hc : s < 2147483648
  · exact ⟨hc, gintOfGuint_eq_of_lt hc⟩
  · rw [if_neg hc] at h; omega

theorem gintOfGuint_neg_of_ge {s : Nat} (h : 2147483648 ≤ s)
    (hlt : s < 4294967296) : gintOfGuint s < 0 := by
  unfold gintOfGuint
  rw [Nat.mod_eq_of_lt hlt, if_neg (by omega)]
  omega

/- The walker fails cleanly past the end of the buffer, and a positive
return is always a validated declared size. -/

theorem dissect_box_out {buf : List Nat} {off : Nat} (fuel p : Nat)
    (acc : List Event) (h : buf.length ≤ off) :
    dissect_mp4_box fuel p buf off acc = (-1, acc) := by
  cases fuel with
  | zero => rfl
  | succ fuel => simp [dissect_mp4_box, tvb_get_ntohl_none h]

theorem dissect_box_ret_cases (fuel p : Nat) (buf : List Nat) (off : Nat)
    (acc : List Event) :
    (dissect_mp4_box fuel p buf off acc).1 = -1 ∨
      ∃ s, tvb_get_ntohl buf off = some s ∧ 8 ≤ s ∧
        (dissect_mp4_box fuel p buf off acc).1 = gintOfGuint s := by
  cases fuel with
  | zero => left; rfl
  | succ fuel =>
    cases h1 : tvb_get_ntohl buf off with
    | none => left; simp [dissect_mp4_box, h1]
    | some s =>
      by_cases h2 : s < 8
      · left; simp [dissect_mp4_box, h1, h2]
      · cases h4 : tvb_get_ntohl buf (off + 4) with
        | none => left; simp [dissect_mp4_box, h1, h2, h4]
        | some t =>
          right
          exact ⟨s, rfl, by omega, by simp [dissect_mp4_box, h1, h2, h4]⟩

theorem dissect_box_pos {fuel p : Nat} {buf : List Nat} {off : Nat}
    {acc : List Event} (h : 0 < (dissect_mp4_box fuel p buf off acc).1) :
    8 ≤ (dissect_mp4_box fuel p buf off acc).1 ∧
      ∃ s, tvb_get_ntohl buf off = some s ∧ 8 ≤ s ∧ s < 2147483648 ∧
        (dissect_mp4_box fuel p buf off acc).1 = (s : Int) := by
  rcases dissect_box_ret_cases fuel p buf off acc with hm | ⟨s, hs, h8, hv⟩
  · omega
  · obtain ⟨hlt, heq⟩ := gintOfGuint_pos_cases (tvb_get_ntohl_lt hs) (hv ▸ h)
    rw [hv, heq]
    exact ⟨by exact_mod_cast h8, s, hs, h8, hlt, rfl⟩

theorem dissect_box_parent (fuel p q : Nat) (buf : List Nat) (off : Nat)
    (acc : List Event) :
    dissect_mp4_box fuel p buf off acc = dissect_mp4_box fuel q buf off acc := by
  cases fuel <;> rfl

end MP4

namespace MP4

/- Consumption of the ftyp compatible-brand loop: with at least len
units of fuel (what dissect_mp4_ftyp_body passes) the loop consumes
whole 4-byte brands until at least len bytes are consumed. -/

theorem ftyp_brand_loop_fst (os len : Nat) :
    ∀ fuel c acc, len ≤ c + 4 * fuel →
      (ftyp_brand_loop fuel os len (os + c) acc).1 =
        os + c + 4 * ((len - c + 3) / 4) := by
  intro fuel
  induction fuel with
  | zero =>
    intro c acc h
    simp only [ftyp_brand_loop]
    omega
  | succ fuel ih =>
    intro c acc h
    simp only [ftyp_brand_loop]
    by_cases hc : os + c - os < len
    · rw [if_pos hc]
      have hstep : os + c + 4 = os + (c + 4) := by omega
      rw [hstep, ih (c + 4) _ (by omega)]
      omega
    · rw [if_neg hc]
      omega

/- Frame lemmas: every dissection function appends to the reporter
accumulator it is given; what it appends and what it returns do not
depend on the accumulator's prior contents. -/

theorem ftyp_brand_loop_frame :
    ∀ fuel os len off acc, ftyp_brand_loop fuel os len off acc =
      ((ftyp_brand_loop fuel os len off []).1,
        acc ++ (ftyp_brand_loop fuel os len off []).2) := by
  intro fuel
  induction fuel with
  | zero => intro os len off acc; simp [ftyp_brand_loop]
  | succ fuel ih =>
    intro os len off acc
    by_cases hc : off - os < len
    · simp only [ftyp_brand_loop, if_pos hc]
      rw [ih os len (off + 4) (acc ++ [Event.item HField.ftyp_add_brand off 4]),
          ih os len (off + 4) ([] ++ [Event.item HField.ftyp_add_brand off 4])]
      simp
    · simp [ftyp_brand_loop, if_neg hc]

theorem mvhd_body_frame (buf : List Nat) (off len : Nat) (acc : List Event) :
    dissect_mp4_mvhd_body buf off len acc =
      ((dissect_mp4_mvhd_body buf off len []).1,
        acc ++ (dissect_mp4_mvhd_body buf off len []).2) := by
  simp [dissect_mp4_mvhd_body]

theorem mfhd_body_frame (buf : List Nat) (off len : Nat) (acc : List Event) :
    dissect_mp4_mfhd_body buf off len acc =
      ((dissect_mp4_mfhd_body buf off len []).1,
        acc ++ (dissect_mp4_mfhd_body buf off len []).2) := by
  simp [dissect_mp4_mfhd_body]

theorem ftyp_body_frame (buf : List Nat) (off len : Nat) (acc : List Event) :
    dissect_mp4_ftyp_body buf off len acc =
      ((dissect_mp4_ftyp_body buf off len []).1,
        acc ++ (dissect_mp4_ftyp_body buf off len []).2) := by
  simp only [dissect_mp4_ftyp_body]
  rw [ftyp_brand_loop_frame len off len (off + 8)
        (acc ++ [Event.item HField.ftyp_brand off 4] ++ [Event.item HField.ftyp_ver (off + 4) 4]),
      ftyp_brand_loop_frame len off len (off + 8)
        ([] ++ [Event.item HField.ftyp_brand off 4] ++ [Event.item HField.ftyp_ver (off + 4) 4])]
  simp

theorem box_loop_frame (child : Nat → List Event → Int × List Event)
    (hchild : ∀ o a, child o a = ((child o []).1, a ++ (child o []).2)) :
    ∀ fuel os bl off acc, box_loop child fuel os bl off acc =
      ((box_loop child fuel os bl off []).1,
        acc ++ (box_loop child fuel os bl off []).2) := by
  intro fuel
  induction fuel with
  | zero => intro os bl off acc; simp [box_loop]
  | succ fuel ih =>
    intro os bl off acc
    by_cases hc : off - os < bl
    · simp only [box_loop, if_pos hc]
      rw [hchild off acc]
      cases hcg : child off [] with
      | mk r E =>
        by_cases hr : r ≤ 0
        · simp [hr]
        · simp only [hr, if_false, List.nil_append]
          rw [ih os bl (off + r.toNat) (acc ++ E), ih os bl (off + r.toNat) E]
          simp
    · simp [box_loop, if_neg hc]

theorem dissect_box_frame (buf : List Nat) :
    ∀ fuel p off acc, dissect_mp4_box fuel p buf off acc =
      ((dissect_mp4_box fuel p buf off []).1,
        acc ++ (dissect_mp4_box fuel p buf off []).2) := by
  intro fuel
  induction fuel with
  | zero => intro p off acc; simp [dissect_mp4_box]
  | succ fuel ih =>
    intro p off acc
    cases h1 : tvb_get_ntohl buf off with
    | none => simp [dissect_mp4_box, h1]
    | some s =>
      by_cases h2 : s < 8
      · simp [dissect_mp4_box, h1, h2]
      · cases h4 : tvb_get_ntohl buf (off + 4) with
        | none => simp [dissect_mp4_box, h1, h2, h4]
        | some t =>
          simp only [dissect_mp4_box, h1, h2, h4, if_false]
          by_cases hf : t = BOX_TYPE_FTYP
          · simp only [hf, if_true, eq_self_iff_true, if_pos]
            rw [ftyp_body_frame buf (off + 8) (s - 8),
                ftyp_body_frame buf (off + 8) (s - 8)
                  ([] ++ [Event.text off s BOX_TYPE_FTYP,
                          Event.item HField.box_size off 4,
                          Event.item HField.box_type_str (off + 4) 4])]
            simp
          · by_cases hv : t = BOX_TYPE_MVHD
            · simp only [hf, hv, if_false, if_true, eq_self_iff_true, if_pos]
              rw [mvhd_body_frame buf (off + 8) (s - 8),
                  mvhd_body_frame buf (off + 8) (s - 8)
                    ([] ++ [Event.text off s BOX_TYPE_MVHD,
                            Event.item HField.box_size off 4,
                            Event.item HField.box_type_str (off + 4) 4])]
              simp [BOX_TYPE_FTYP, BOX_TYPE_MVHD, mk_type_val]
            · by_cases hm : t = BOX_TYPE_MFHD
              · simp only [hf, hv, hm, if_false, if_true, eq_self_iff_true, if_pos]
                rw [mfhd_body_frame buf (off + 8) (s - 8),
                    mfhd_body_frame buf (off + 8) (s - 8)
                      ([] ++ [Event.text off s BOX_TYPE_MFHD,
                              Event.item HField.box_size off 4,
                              Event.item HField.box_type_str (off + 4) 4])]
                simp [BOX_TYPE_FTYP, BOX_TYPE_MVHD, BOX_TYPE_MFHD, mk_type_val]
              · by_cases hcont : is_container_type t
                · simp only [hf, hv, hm, hcont, if_false, if_true]
                  have hchild : ∀ o a,
                      dissect_mp4_box fuel t buf o a =
                        ((dissect_mp4_box fuel t buf o []).1,
                          a ++ (dissect_mp4_box fuel t buf o []).2) :=
                    fun o a => ih t o a
                  rw [box_loop_frame (fun o a => dissect_mp4_box fuel t buf o a)
                        hchild fuel off s (off + 8),
                      box_loop_frame (fun o a => dissect_mp4_box fuel t buf o a)
                        hchild fuel off s (off + 8)
                        ([] ++ [Event.text off s t,
                                Event.item HField.box_size off 4,
                                Event.item HField.box_type_str (off + 4) 4])]
                  simp
                · simp [hf, hv, hm, hcont]

theorem mp4_top_loop_frame (buf : List Nat) :
    ∀ fuel off acc, mp4_top_loop fuel buf off acc =
      ((mp4_top_loop fuel buf off []).1,
        acc ++ (mp4_top_loop fuel buf off []).2) := by
  intro fuel
  induction fuel with
  | zero => intro off acc; simp [mp4_top_loop]
  | succ fuel ih =>
    intro off acc
    by_cases hc : off < buf.length
    · simp only [mp4_top_loop, if_pos hc]
      rw [dissect_box_frame buf fuel BOX_TYPE_NONE off acc]
      cases hcg : dissect_mp4_box fuel BOX_TYPE_NONE buf off [] with
      | mk r E =>
        by_cases hr : r ≤ 0
        · simp [hr]
        · simp only [hr, if_false, List.nil_append]
          rw [ih (off + r.toNat) (acc ++ E), ih (off + r.toNat) E]
          simp
    · simp [mp4_top_loop, if_neg hc]

theorem dissect_mp4_frame (fuel : Nat) (buf : List Nat) (acc : List Event) :
    dissect_mp4 fuel buf acc =
      ((dissect_mp4 fuel buf []).1, acc ++ (dissect_mp4 fuel buf []).2) := by
  unfold dissect_mp4
  by_cases h : buf.length < 8
  · simp [h]
  · simp only [if_neg h]
    cases h4 : tvb_get_ntohl buf 4 with
    | none => simp
    | some t =>
      cases hl : try_val_to_str t with
      | none => simp [hl]
      | some nm =>
        rw [mp4_top_loop_frame buf fuel 0 (acc ++ [Event.protocol buf.length]),
            mp4_top_loop_frame buf fuel 0 ([] ++ [Event.protocol buf.length])]
        simp [hl]

end MP4

namespace MP4

/- Fuel stability: on a finite buffer every loop exits, so beyond an
explicit fuel bound (one unit per 8 bytes of buffer) the result no
longer depends on the fuel. -/

theorem dissect_box_succ_eq (fuel p : Nat) (buf : List Nat) (off : Nat)
    (acc : List Event) (s t : Nat) (h1 : tvb_get_ntohl buf off = some s)
    (h2 : ¬ s < 8) (h4 : tvb_get_ntohl buf (off + 4) = some t) :
    dissect_mp4_box (fuel + 1) p buf off acc =
      (gintOfGuint s,
        if t = BOX_TYPE_FTYP then
          (dissect_mp4_ftyp_body buf (off + 8) (s - 8)
            (acc ++ [Event.text off s t, Event.item HField.box_size off 4,
                     Event.item HField.box_type_str (off + 4) 4])).2
        else if t = BOX_TYPE_MVHD then
          (dissect_mp4_mvhd_body buf (off + 8) (s - 8)
            (acc ++ [Event.text off s t, Event.item HField.box_size off 4,
                     Event.item HField.box_type_str (off + 4) 4])).2
        else if t = BOX_TYPE_MFHD then
          (dissect_mp4_mfhd_body buf (off + 8) (s - 8)
            (acc ++ [Event.text off s t, Event.item HField.box_size off 4,
                     Event.item HField.box_type_str (off + 4) 4])).2
        else if is_container_type t then
          (box_loop (fun o a => dissect_mp4_box fuel t buf o a) fuel off s (off + 8)
            (acc ++ [Event.text off s t, Event.item HField.box_size off 4,
                     Event.item HField.box_type_str (off + 4) 4])).2
        else acc ++ [Event.text off s t, Event.item HField.box_size off 4,
                     Event.item HField.box_type_str (off + 4) 4]) := by
  simp only [dissect_mp4_box, h1, h2, h4, if_false]

theorem box_loop_stable (child1 child2 : Nat → List Event → Int × List Event)
    (len : Nat)
    (hfail : ∀ o a, len ≤ o → child1 o a = (-1, a))
    (hprog : ∀ o a, 0 < (child1 o a).1 → 8 ≤ (child1 o a).1) :
    ∀ lf lg, lf ≤ lg → ∀ os bl off acc,
      (∀ o, off ≤ o → ∀ a, child1 o a = child2 o a) →
      len ≤ off + 8 * lf →
      box_loop child1 lf os bl off acc = box_loop child2 lg os bl off acc := by
  intro lf
  induction lf with
  | zero =>
    intro lg _ os bl off acc hagree hlen
    cases lg with
    | zero => rfl
    | succ lg =>
      simp only [box_loop]
      by_cases hc : off - os < bl
      · rw [if_pos hc, ← hagree off le_rfl acc, hfail off acc (by omega)]
        simp
      · rw [if_neg hc]
  | succ lf ih =>
    intro lg hle os bl off acc hagree hlen
    cases lg with
    | zero => exact absurd hle (by omega)
    | succ lg =>
      simp only [box_loop]
      by_cases hc : off - os < bl
      · rw [if_pos hc, if_pos hc, ← hagree off le_rfl acc]
        by_cases hr : (child1 off acc).1 ≤ 0
        · rw [if_pos hr, if_pos hr]
        · rw [if_neg hr, if_neg hr]
          have h8 : 8 ≤ (child1 off acc).1 := hprog off acc (by omega)
          have h8n : 8 ≤ (child1 off acc).1.toNat := by omega
          apply ih lg (by omega) os bl _ _ (fun o ho a => hagree o (by omega) a) (by omega)
      · rw [if_neg hc, if_neg hc]

theorem dissect_box_stable (buf : List Nat) :
    ∀ f g, f ≤ g → ∀ p off acc, buf.length ≤ off + 8 + 8 * f →
      dissect_mp4_box (f + 1) p buf off acc =
        dissect_mp4_box (g + 1) p buf off acc := by
  intro f
  induction f with
  | zero =>
    intro g _ p off acc hlen
    cases h1 : tvb_get_ntohl buf off with
    | none => simp [dissect_mp4_box, h1]
    | some s =>
      by_cases h2 : s < 8
      · simp [dissect_mp4_box, h1, h2]
      · cases h4 : tvb_get_ntohl buf (off + 4) with
        | none => simp [dissect_mp4_box, h1, h2, h4]
        | some t =>
          have hloop :
              box_loop (fun o a => dissect_mp4_box 0 t buf o a) 0 off s (off + 8)
                  (acc ++ [Event.text off s t, Event.item HField.box_size off 4,
                           Event.item HField.box_type_str (off + 4) 4]) =
                box_loop (fun o a => dissect_mp4_box g t buf o a) g off s (off + 8)
                  (acc ++ [Event.text off s t, Event.item HField.box_size off 4,
                           Event.item HField.box_type_str (off + 4) 4]) := by
            apply box_loop_stable _ _ buf.length
              (fun o a ho => dissect_box_out 0 t a ho)
              (fun o a h => (dissect_box_pos h).1)
              0 g (by omega) off s (off + 8) _ _ (by omega)
            intro o ho a
            rw [dissect_box_out 0 t a (by omega), dissect_box_out g t a (by omega)]
          rw [dissect_box_succ_eq 0 p buf off acc s t h1 h2 h4,
              dissect_box_succ_eq g p buf off acc s t h1 h2 h4, hloop]
  | succ f ih =>
    intro g hle p off acc hlen
    cases g with
    | zero => exact absurd hle (by omega)
    | succ g2 =>
      cases h1 : tvb_get_ntohl buf off with
      | none => simp [dissect_mp4_box, h1]
      | some s =>
        by_cases h2 : s < 8
        · simp [dissect_mp4_box, h1, h2]
        · cases h4 : tvb_get_ntohl buf (off + 4) with
          | none => simp [dissect_mp4_box, h1, h2, h4]
          | some t =>
            have hloop :
                box_loop (fun o a => dissect_mp4_box (f + 1) t buf o a) (f + 1) off s (off + 8)
                    (acc ++ [Event.text off s t, Event.item HField.box_size off 4,
                             Event.item HField.box_type_str (off + 4) 4]) =
                  box_loop (fun o a => dissect_mp4_box (g2 + 1) t buf o a) (g2 + 1) off s (off + 8)
                    (acc ++ [Event.text off s t, Event.item HField.box_size off 4,
                             Event.item HField.box_type_str (off + 4) 4]) := by
              apply box_loop_stable _ _ buf.length
                (fun o a ho => dissect_box_out (f + 1) t a ho)
                (fun o a h => (dissect_box_pos h).1)
                (f + 1) (g2 + 1) (by omega) off s (off + 8) _ _ (by omega)
              intro o ho a
              exact ih g2 (by omega) t o a (by omega)
            rw [dissect_box_succ_eq (f + 1) p buf off acc s t h1 h2 h4,
                dissect_box_succ_eq (g2 + 1) p buf off acc s t h1 h2 h4, hloop]

theorem mp4_top_loop_stable (buf : List Nat) :
    ∀ f g, f ≤ g → ∀ off acc, buf.length + 8 ≤ off + 8 * f →
      mp4_top_loop f buf off acc = mp4_top_loop g buf off acc := by
  intro f
  induction f with
  | zero =>
    intro g _ off acc hlen
    cases g with
    | zero => rfl
    | succ g =>
      simp only [mp4_top_loop]
      rw [if_neg (by omega)]
  | succ f ih =>
    intro g hle off acc hlen
    cases g with
    | zero => exact absurd hle (by omega)
    | succ g2 =>
      simp only [mp4_top_loop]
      by_cases hc : off < buf.length
      · rw [if_pos hc, if_pos hc]
        have hchild : dissect_mp4_box f BOX_TYPE_NONE buf off acc =
            dissect_mp4_box g2 BOX_TYPE_NONE buf off acc := by
          cases f with
          | zero => exact absurd hc (by omega)
          | succ f2 =>
            cases g2 with
            | zero => exact absurd hle (by omega)
            | succ g3 =>
              exact dissect_box_stable buf f2 g3 (by omega) BOX_TYPE_NONE off acc (by omega)
        rw [hchild]
        by_cases hr : (dissect_mp4_box g2 BOX_TYPE_NONE buf off acc).1 ≤ 0
        · rw [if_pos hr, if_pos hr]
        · rw [if_neg hr, if_neg hr]
          have h8 : 8 ≤ (dissect_mp4_box g2 BOX_TYPE_NONE buf off acc).1 :=
            (dissect_box_pos (by omega)).1
          have h8n : 8 ≤ (dissect_mp4_box g2 BOX_TYPE_NONE buf off acc).1.toNat := by omega
          apply ih g2 (by omega) _ _ (by omega)
      · rw [if_neg hc, if_neg hc]

end MP4

namespace MP4

/-- Claim C1 (amended): whenever the Walker advances the cursor it
advances by at least 8 bytes — a positive return of dissect_mp4_box is
the declared size, read at the cursor and validated before any advance.
The other half of the original claim, that the Walker never reads past
end_offset, is false: when fewer than 8 bytes of the extent remain, the
8-byte child header read performed at a cursor below end_offset crosses
end_offset (see the counterexample theorem). -/
theorem c1_walker_advances_by_at_least_eight (fuel p : Nat) (buf : List Nat)
    (off : Nat) (acc : List Event) (r : Int) (evs : List Event)
    (h : dissect_mp4_box fuel p buf off acc = (r, evs)) (hr : 0 < r) :
    8 ≤ r ∧ ∃ s, tvb_get_ntohl buf off = some s ∧ 8 ≤ s ∧ r = (s : Int) := by
  have h1 : 0 < (dissect_mp4_box fuel p buf off acc).1 := by rw [h]; exact hr
  obtain ⟨h8, s, hs, hs8, _, hv⟩ := dissect_box_pos h1
  rw [h] at h8 hv
  exact ⟨h8, s, hs, hs8, hv⟩

/-- Witness for c1_walker_advances_by_at_least_eight: an 8-byte opaque
box at offset 0 returns 8, which is at least 8 and equals the size
field read at the cursor. -/
theorem c1_walker_advances_by_at_least_eight_witness :
    8 ≤ (8 : Int) ∧ ∃ s, tvb_get_ntohl [0,0,0,8,1,1,1,1] 0 = some s ∧
      8 ≤ s ∧ (8 : Int) = (s : Int) :=
  c1_walker_advances_by_at_least_eight 2 0 [0,0,0,8,1,1,1,1] 0 [] 8
    [Event.text 0 8 16843009, Event.item HField.box_size 0 4,
     Event.item HField.box_type_str 4 4] (by decide) (by decide)

/-- Counterexample to claim C1 as stated: dissecting a moov container
box of declared size 15 at offset 0, the Walker traverses the payload
extent that ends at end_offset 15; at cursor 8 (below 15) it performs
the 8-byte child header read, whose reported type field covers bytes
12 to 16 and crosses end_offset, so its emissions do not stay within
the extent. -/
theorem c1_walker_reads_cross_extent_cex :
    tvb_get_ntohl [0,0,0,15, 109,111,111,118, 0,0,0,8, 122,122,122,122] 0 = some 15 ∧
    tvb_get_ntohl [0,0,0,15, 109,111,111,118, 0,0,0,8, 122,122,122,122] 4 = some BOX_TYPE_MOOV ∧
    is_container_type BOX_TYPE_MOOV = true ∧
    Event.item HField.box_type_str 12 4 ∈
      (dissect_mp4_box 5 0 [0,0,0,15, 109,111,111,118, 0,0,0,8, 122,122,122,122] 0 []).2 ∧
    ¬ readsWithinExtent
      (dissect_mp4_box 5 0 [0,0,0,15, 109,111,111,118, 0,0,0,8, 122,122,122,122] 0 []).2 15 := by
  decide

/-- Claim C2 (amended): the leaf body decoders do not bound their reads
by the declared payload length.  The file-type decoder consumes
8 + 4 * ceil((len - 8) / 4) bytes, so when len - 8 is not a multiple of
4 (or len is below 8) its reads run past len instead of treating the
remainder as no more brands; the movie-header and movie-fragment-header
decoders consume fixed 4 and 8 bytes ignoring len.  PayloadOverrun is
not checked defensively anywhere; bounds come only from the underlying
buffer accessors. -/
theorem c2_leaf_decoder_consumption (buf : List Nat) (offset len : Nat)
    (acc : List Event) :
    (dissect_mp4_ftyp_body buf offset len acc).1 = 8 + 4 * ((len - 8 + 3) / 4) ∧
    (dissect_mp4_mvhd_body buf offset len acc).1 = 4 ∧
    (dissect_mp4_mfhd_body buf offset len acc).1 = 8 := by
  refine ⟨?_, by simp only [dissect_mp4_mvhd_body]; omega,
          by simp only [dissect_mp4_mfhd_body]; omega⟩
  simp only [dissect_mp4_ftyp_body]
  rw [ftyp_brand_loop_fst offset len len 8 _ (by omega)]
  omega

/-- Counterexample to claim C2 as stated: a file-type box payload of
declared length 9 (one byte past the fixed 8-byte prefix, not a
multiple of 4) makes the decoder read a full 4-byte compatible brand at
payload offset 8, consuming 12 bytes and running 3 bytes past the
declared payload length instead of stopping. -/
theorem c2_ftyp_overrun_cex :
    (dissect_mp4_ftyp_body [0,0,0,0,0,0,0,0,0,0,0,0] 0 9 []).1 = 12 ∧
    9 < 12 ∧
    Event.item HField.ftyp_add_brand 8 4 ∈
      (dissect_mp4_ftyp_body [0,0,0,0,0,0,0,0,0,0,0,0] 0 9 []).2 ∧
    9 < 8 + 4 := by
  decide

/-- Claim C3 (amended): for a box whose header reads succeed and whose
declared size s is at least 8 and below 2^31 (so that the gint return
is positive), the per-box dissection returns exactly s, and both the
container sibling loop and the top-level loop advance their cursor by
exactly s — not by what the leaf decoder or the recursion consumed.
For declared sizes of 2^31 or more the signed return is non-positive
and the loops stop instead of advancing (see the counterexample). -/
theorem c3_cursor_advances_by_declared_size (fuel bt : Nat) (buf : List Nat)
    (os bl off : Nat) (acc : List Event) (s t : Nat)
    (h1 : tvb_get_ntohl buf off = some s) (h2 : 8 ≤ s) (h3 : s < 2147483648)
    (h4 : tvb_get_ntohl buf (off + 4) = some t) (h5 : off - os < bl) :
    (dissect_mp4_box (fuel + 1) bt buf off acc).1 = (s : Int) ∧
    box_loop (fun o a => dissect_mp4_box (fuel + 1) bt buf o a) (fuel + 1) os bl off acc =
      box_loop (fun o a => dissect_mp4_box (fuel + 1) bt buf o a) fuel os bl
        (off + s) (dissect_mp4_box (fuel + 1) bt buf off acc).2 ∧
    (off < buf.length →
      mp4_top_loop (fuel + 2) buf off acc =
        mp4_top_loop (fuel + 1) buf (off + s)
          (dissect_mp4_box (fuel + 1) BOX_TYPE_NONE buf off acc).2) := by
  have hfst : ∀ q, (dissect_mp4_box (fuel + 1) q buf off acc).1 = (s : Int) := by
    intro q
    rw [dissect_box_succ_eq fuel q buf off acc s t h1 (by omega) h4]
    simp [gintOfGuint_eq_of_lt h3]
  have hspos : ¬ ((s : Int) ≤ 0) := by
    have : (0 : Int) < (s : Int) := by exact_mod_cast (by omega : 0 < s)
    omega
  have htn : ((s : Int)).toNat = s := Int.toNat_natCast s
  refine ⟨hfst bt, ?_, ?_⟩
  · simp only [box_loop]
    rw [if_pos h5, hfst bt]
    rw [if_neg hspos, htn]
  · intro hc
    simp only [mp4_top_loop]
    rw [if_pos hc, hfst BOX_TYPE_NONE]
    rw [if_neg hspos, htn]

/-- Witness for c3_cursor_advances_by_declared_size: a 16-byte buffer
holding two 8-byte opaque boxes; the loops step from cursor 0 to
cursor 8, the first box's declared size. -/
theorem c3_cursor_advances_by_declared_size_witness :
    (dissect_mp4_box 2 0 [0,0,0,8, 1,1,1,1, 0,0,0,8, 2,2,2,2] 0 []).1 = ((8 : Nat) : Int) ∧
    box_loop (fun o a => dissect_mp4_box 2 0 [0,0,0,8, 1,1,1,1, 0,0,0,8, 2,2,2,2] o a)
        2 0 16 0 [] =
      box_loop (fun o a => dissect_mp4_box 2 0 [0,0,0,8, 1,1,1,1, 0,0,0,8, 2,2,2,2] o a)
        1 0 16 8 (dissect_mp4_box 2 0 [0,0,0,8, 1,1,1,1, 0,0,0,8, 2,2,2,2] 0 []).2 ∧
    mp4_top_loop 3 [0,0,0,8, 1,1,1,1, 0,0,0,8, 2,2,2,2] 0 [] =
      mp4_top_loop 2 [0,0,0,8, 1,1,1,1, 0,0,0,8, 2,2,2,2] 8
        (dissect_mp4_box 2 BOX_TYPE_NONE [0,0,0,8, 1,1,1,1, 0,0,0,8, 2,2,2,2] 0 []).2 := by
  obtain ⟨a, b, c⟩ := c3_cursor_advances_by_declared_size 1 0
    [0,0,0,8, 1,1,1,1, 0,0,0,8, 2,2,2,2] 0 16 0 [] 8 16843009
    (by decide) (by decide) (by decide) (by decide) (by decide)
  exact ⟨a, b, c (by decide)⟩

/-- Counterexample to claim C3 as stated: a box whose header is read
successfully with declared size 2^31 (at least 8) does not make the
Walker advance by the declared size: the gint return is negative, the
top-level loop breaks, and the final cursor is 0, not 2^31. -/
theorem c3_no_advance_for_huge_declared_size_cex :
    tvb_get_ntohl [128,0,0,0, 109,111,111,118] 0 = some 2147483648 ∧
    tvb_get_ntohl [128,0,0,0, 109,111,111,118] 4 = some BOX_TYPE_MOOV ∧
    (mp4_top_loop 4 [128,0,0,0, 109,111,111,118] 0 []).1 = 0 ∧
    (dissect_mp4 5 [128,0,0,0, 109,111,111,118] []).1 = 0 ∧
    (0 : Nat) ≠ 2147483648 := by
  decide

/-- Claim C4: a box whose 32-bit size field is below 8 is rejected:
dissect_mp4_box returns -1 having consumed nothing beyond the attempted
header read (no emissions are appended), and both the container sibling
loop and the top-level loop stop at once without advancing their
cursor. -/
theorem c4_small_box_rejected (fuel p : Nat) (buf : List Nat) (off : Nat)
    (acc : List Event) (s : Nat) (h1 : tvb_get_ntohl buf off = some s)
    (h2 : s < 8) :
    dissect_mp4_box fuel p buf off acc = (-1, acc) ∧
    (∀ bt bl os acc2,
      box_loop (fun o a => dissect_mp4_box fuel bt buf o a) (fuel + 1) os bl off acc2 =
        (off, acc2)) ∧
    (∀ acc3, mp4_top_loop (fuel + 1) buf off acc3 = (off, acc3)) := by
  have hbox : ∀ (f q : Nat) (a : List Event), dissect_mp4_box f q buf off a = (-1, a) := by
    intro f q a
    cases f with
    | zero => rfl
    | succ f => simp [dissect_mp4_box, h1, h2]
  refine ⟨hbox fuel p acc, ?_, ?_⟩
  · intro bt bl os acc2
    simp only [box_loop]
    by_cases hc : off - os < bl
    · rw [if_pos hc, hbox fuel bt acc2]
      simp
    · rw [if_neg hc]
  · intro acc3
    simp only [mp4_top_loop]
    by_cases hc : off < buf.length
    · rw [if_pos hc, hbox fuel BOX_TYPE_NONE acc3]
      simp
    · rw [if_neg hc]

/-- Witness for c4_small_box_rejected: a buffer whose first box claims
size 5. -/
theorem c4_small_box_rejected_witness :
    dissect_mp4_box 3 0 [0,0,0,5,1,2,3,4] 0 [] = (-1, []) ∧
    box_loop (fun o a => dissect_mp4_box 3 7 [0,0,0,5,1,2,3,4] o a) 4 2 20 0 [] = (0, []) ∧
    mp4_top_loop 4 [0,0,0,5,1,2,3,4] 0 [] = (0, []) := by
  obtain ⟨a, b, c⟩ := c4_small_box_rejected 3 0 [0,0,0,5,1,2,3,4] 0 [] 5 (by decide) (by decide)
  exact ⟨a, b 7 20 2 [], c []⟩

/-- Claim C5: the top-level entry declines — returns 0 consumed and
appends no emissions — when the buffer is shorter than 8 bytes, or when
the 4-byte type tag at offset 4 is not in the box-type registry. -/
theorem c5_sniff_gate_declines (fuel : Nat) (buf : List Nat) (acc : List Event) :
    (buf.length < 8 → dissect_mp4 fuel buf acc = (0, acc)) ∧
    (∀ t, tvb_get_ntohl buf 4 = some t → try_val_to_str t = none →
      dissect_mp4 fuel buf acc = (0, acc)) := by
  constructor
  · intro h
    simp [dissect_mp4, h]
  · intro t h4 hl
    unfold dissect_mp4
    by_cases h : buf.length < 8
    · simp [h]
    · simp [h, h4, hl]

/-- Witness for c5_sniff_gate_declines: a 3-byte buffer, and an 8-byte
buffer whose type tag 0x01020304 is not a registered box type. -/
theorem c5_sniff_gate_declines_witness :
    dissect_mp4 3 [1,2,3] [] = (0, []) ∧
    dissect_mp4 3 [0,0,0,8,1,2,3,4] [] = (0, []) :=
  ⟨(c5_sniff_gate_declines 3 [1,2,3] []).1 (by decide),
   (c5_sniff_gate_declines 3 [0,0,0,8,1,2,3,4] []).2 16909060 (by decide) (by decide)⟩

end MP4

namespace MP4

/-- Claim C6 (amended): for a container box whose declared size s is at
least 8 and below 2^31, a failing recursive child traversal does not
propagate to the container: the container's dissection still returns
the positive value s, its full declared size, regardless of the child
result.  For container sizes of 2^31 or more the container's return is
negative for reasons unrelated to its children (see the
counterexample), so the original unrestricted claim fails. -/
theorem c6_container_result_ignores_child_failure (fuel p : Nat)
    (buf : List Nat) (off : Nat) (acc : List Event) (s t : Nat)
    (h1 : tvb_get_ntohl buf off = some s) (h2 : 8 ≤ s) (h3 : s < 2147483648)
    (h4 : tvb_get_ntohl buf (off + 4) = some t)
    (h5 : is_container_type t = true)
    (h6 : (dissect_mp4_box fuel t buf (off + 8) []).1 ≤ 0) :
    0 < (dissect_mp4_box (fuel + 1) p buf off acc).1 ∧
    (dissect_mp4_box (fuel + 1) p buf off acc).1 = (s : Int) := by
  have hfst : (dissect_mp4_box (fuel + 1) p buf off acc).1 = (s : Int) := by
    rw [dissect_box_succ_eq fuel p buf off acc s t h1 (by omega) h4]
    simp [gintOfGuint_eq_of_lt h3]
  refine ⟨?_, hfst⟩
  rw [hfst]
  exact_mod_cast (by omega : 0 < s)

/-- Witness for c6_container_result_ignores_child_failure: a moov box
of size 16 whose only child claims size 5 and therefore fails; the
container still returns 16. -/
theorem c6_container_result_ignores_child_failure_witness :
    0 < (dissect_mp4_box 3 0 [0,0,0,16, 109,111,111,118, 0,0,0,5, 0,0,0,0] 0 []).1 ∧
    (dissect_mp4_box 3 0 [0,0,0,16, 109,111,111,118, 0,0,0,5, 0,0,0,0] 0 []).1 =
      ((16 : Nat) : Int) :=
  c6_container_result_ignores_child_failure 2 0
    [0,0,0,16, 109,111,111,118, 0,0,0,5, 0,0,0,0] 0 [] 16 BOX_TYPE_MOOV
    (by decide) (by decide) (by decide) (by decide) (by decide) (by decide)

/-- Counterexample to claim C6 as stated: a moov container of declared
size 2^31 + 16 whose child at offset 8 is malformed (size 5, returns
-1 and stops early); the container's own dissection does not succeed —
its gint return is the negative -2147483632, which its caller treats
as failure, and it is not the declared size. -/
theorem c6_huge_container_with_bad_child_cex :
    tvb_get_ntohl [128,0,0,16, 109,111,111,118, 0,0,0,5, 0,0,0,0] 0 = some 2147483664 ∧
    tvb_get_ntohl [128,0,0,16, 109,111,111,118, 0,0,0,5, 0,0,0,0] 4 = some BOX_TYPE_MOOV ∧
    is_container_type BOX_TYPE_MOOV = true ∧
    (dissect_mp4_box 3 BOX_TYPE_MOOV [128,0,0,16, 109,111,111,118, 0,0,0,5, 0,0,0,0] 8 []).1 = -1 ∧
    (dissect_mp4_box 4 0 [128,0,0,16, 109,111,111,118, 0,0,0,5, 0,0,0,0] 0 []).1 = -2147483632 ∧
    (dissect_mp4_box 4 0 [128,0,0,16, 109,111,111,118, 0,0,0,5, 0,0,0,0] 0 []).1 < 0 ∧
    (dissect_mp4_box 4 0 [128,0,0,16, 109,111,111,118, 0,0,0,5, 0,0,0,0] 0 []).1 ≠
      ((2147483664 : Nat) : Int) := by
  decide

/-- Claim C7: parsing terminates on every finite buffer.  Each loop
iteration either advances the cursor by at least 8 bytes or exits, so
one fuel unit per 8 bytes of buffer suffices for every loop and
recursion to run to its exit: beyond that bound the result of the
top-level entry does not depend on the fuel at all. -/
theorem c7_parsing_terminates (buf : List Nat) (acc : List Event)
    (g h : Nat) (hg : buf.length + 8 ≤ 8 * g) (hgh : g ≤ h) :
    dissect_mp4 h buf acc = dissect_mp4 g buf acc := by
  unfold dissect_mp4
  by_cases hlen : buf.length < 8
  · simp [hlen]
  · simp only [if_neg hlen]
    rw [← mp4_top_loop_stable buf g h hgh 0
          (acc ++ [Event.protocol buf.length]) (by omega)]

/-- Witness for c7_parsing_terminates: an 8-byte moov box; fuel 3
already exceeds the bound, and larger fuel gives the same result. -/
theorem c7_parsing_terminates_witness :
    dissect_mp4 5 [0,0,0,8, 109,111,111,118] [] =
      dissect_mp4 3 [0,0,0,8, 109,111,111,118] [] :=
  c7_parsing_terminates [0,0,0,8, 109,111,111,118] [] 3 5 (by decide) (by decide)

/-- Claim C8: parsing is deterministic.  The value returned by the
top-level entry and the sequence of emissions it appends to the
reporter are functions of the buffer alone: two runs over the same
buffer, from arbitrary (even different) prior reporter contents, return
the same consumed count and append the same emission sequence. -/
theorem c8_deterministic_reporting (fuel : Nat) (buf : List Nat)
    (acc1 acc2 : List Event) :
    (dissect_mp4 fuel buf acc1).1 = (dissect_mp4 fuel buf acc2).1 ∧
    (dissect_mp4 fuel buf acc1).2.drop acc1.length =
      (dissect_mp4 fuel buf acc2).2.drop acc2.length := by
  rw [dissect_mp4_frame fuel buf acc1, dissect_mp4_frame fuel buf acc2]
  simp [List.drop_left]

/-- Claim C9 (amended): dissect_mp4_box returns either -1 (failed or
truncated header read, or declared size below 8) or the guint-to-gint
conversion of the declared size s (at least 8) read at the offset; it
never returns 0, and its result does not depend on the parent_box_type
argument.  A positive return always equals s and occurs exactly when
s is below 2^31; for s of 2^31 or more the converted return is
negative — for s = 2^32 - 1 it is exactly -1, coinciding with the
failure value — so the callers' stop condition is triggered by
failures and by every declared size of 2^31 or more alike, refuting
the original claim that only the -1 failure path can trigger it. -/
theorem c9_return_value_classification (fuel p : Nat) (buf : List Nat)
    (off : Nat) (acc : List Event) :
    ((dissect_mp4_box fuel p buf off acc).1 = -1 ∨
      ∃ s, tvb_get_ntohl buf off = some s ∧ 8 ≤ s ∧
        (dissect_mp4_box fuel p buf off acc).1 = gintOfGuint s ∧
        (s < 2147483648 → (dissect_mp4_box fuel p buf off acc).1 = (s : Int)) ∧
        (2147483648 ≤ s → (dissect_mp4_box fuel p buf off acc).1 < 0)) ∧
    (dissect_mp4_box fuel p buf off acc).1 ≠ 0 ∧
    (∀ q, dissect_mp4_box fuel q buf off acc = dissect_mp4_box fuel p buf off acc) ∧
    gintOfGuint 4294967295 = -1 := by
  refine ⟨?_, ?_, fun q => dissect_box_parent fuel q p buf off acc, by decide⟩
  · rcases dissect_box_ret_cases fuel p buf off acc with hm | ⟨s, hs, h8, hv⟩
    · exact Or.inl hm
    · refine Or.inr ⟨s, hs, h8, hv, ?_, ?_⟩
      · intro hlt
        rw [hv, gintOfGuint_eq_of_lt hlt]
      · intro hge
        rw [hv]
        exact gintOfGuint_neg_of_ge hge (tvb_get_ntohl_lt hs)
  · rcases dissect_box_ret_cases fuel p buf off acc with hm | ⟨s, hs, h8, hv⟩
    · rw [hm]; decide
    · rw [hv]; exact gintOfGuint_ne_zero h8 (tvb_get_ntohl_lt hs)

/-- Counterexample to claim C9 as stated: a box whose size field holds
2^31 returns -2147483648 through the gint return type — neither -1 nor
the declared size — so the callers' stop condition is triggered by a
value other than the -1 failure path. -/
theorem c9_huge_size_return_cex :
    tvb_get_ntohl [128,0,0,0, 122,122,122,122] 0 = some 2147483648 ∧
    (dissect_mp4_box 3 0 [128,0,0,0, 122,122,122,122] 0 []).1 = -2147483648 ∧
    (dissect_mp4_box 3 0 [128,0,0,0, 122,122,122,122] 0 []).1 ≠ -1 ∧
    (dissect_mp4_box 3 0 [128,0,0,0, 122,122,122,122] 0 []).1 ≠
      ((2147483648 : Nat) : Int) := by
  decide

/-- Claim C10: the bytes-consumed value returned by the top-level entry
can exceed the buffer length.  On a 16-byte buffer holding an 8-byte
moov box followed by a box that declares size 100, the cursor is
advanced by the full declared 100 before the remaining-length check
ends the loop, and the entry returns 108. -/
theorem c10_consumed_can_exceed_buffer_length :
    ([0,0,0,8, 109,111,111,118, 0,0,0,100, 122,122,122,122] : List Nat).length = 16 ∧
    (dissect_mp4 5 [0,0,0,8, 109,111,111,118, 0,0,0,100, 122,122,122,122] []).1 = 108 ∧
    (16 : Int) < 108 := by
  decide

end MP4
